import Mathlib

/-!
Verification development for the MantraAI student-mentoring web application.

The definitions below are a shallow embedding of the TypeScript source:
strings are `List Char`, wall-clock timestamps are omitted, the external
completion provider and persistence store are modelled as parameters, and
each React event handler becomes a pure state-transition function.
-/

namespace MantraAI

/-! ## Character classes and trimming (JS `\s`, line terminators, `String.trim`) -/

/-- ASCII portion of the JavaScript regex class `\s` (whitespace). -/
def jsWs (c : Char) : Bool :=
  c = ' ' || c = '\t' || c = '\n' || c = '\r' || c = '\x0b' || c = '\x0c'

/-- JavaScript regex line terminators relevant here (`.` never matches these,
and `$` with the `m` flag matches just before them). -/
def lineTerm (c : Char) : Bool :=
  c = '\n' || c = '\r'

/-- Models `String.prototype.trim`: strip whitespace from both ends. -/
def trimChars (cs : List Char) : List Char :=
  ((cs.dropWhile jsWs).reverse.dropWhile jsWs).reverse

/-! ## Case-insensitive literal scanning

`text.match(/pat/i)` scanning is modelled by comparing each text character,
lowercased, against a lowercase pattern. -/

/-- Does `cs` start with the lowercase pattern `pat`, case-insensitively? -/
def ciStartsWith (pat : List Char) (cs : List Char) : Bool :=
  match pat, cs with
  | [], _ => true
  | _ :: _, [] => false
  | p :: ps, c :: rest => p = c.toLower && ciStartsWith ps rest

/-- Does `cs` contain an occurrence of the lowercase pattern `pat`,
case-insensitively, at any position? -/
def containsCi (pat : List Char) (cs : List Char) : Bool :=
  match cs with
  | [] => ciStartsWith pat []
  | _ :: rest => ciStartsWith pat cs || containsCi pat rest

/-! ## `parseAIResponse` (page.tsx lines 796-810 and 1805-1819)

```ts
function parseAIResponse(text: string) {
  const confidenceMatch = text.match(/Confidence:\s*(High|Medium|Low)/i)
  const askMatch = text.match(/Ask-Me-Back:\s*(.+)/i)
  const confidence = confidenceMatch ? confidenceMatch[1].toLowerCase() : undefined
  let content = text.replace(/Confidence:.*$/im, '')
  content = content.replace(/Ask-Me-Back:.*$/im, '')
  const askBackQuestion = askMatch ? askMatch[1].trim() : undefined
  return { content: content.trim(), confidence, askBackQuestion }
}
```
-/

inductive Confidence where
  | high
  | medium
  | low
deriving DecidableEq, Repr

def confMarker : List Char := "confidence:".toList
def askMarker : List Char := "ask-me-back:".toList
def highMarker : List Char := "high".toList
def mediumMarker : List Char := "medium".toList
def lowMarker : List Char := "low".toList

/-- Models `text.match(/Confidence:\s*(High|Medium|Low)/i)`: scan left to
right for the first position where the literal matches case-insensitively
and, after greedily skipping whitespace, one of the three levels follows.
(The alternatives start with non-whitespace letters, so greedy `\s*`
needs no backtracking.) -/
def findConfidence : List Char → Option Confidence
  | [] => none
  | c :: cs =>
    if ciStartsWith confMarker (c :: cs) then
      let rest := List.dropWhile jsWs (List.drop confMarker.length (c :: cs))
      if ciStartsWith highMarker rest then some Confidence.high
      else if ciStartsWith mediumMarker rest then some Confidence.medium
      else if ciStartsWith lowMarker rest then some Confidence.low
      else findConfidence cs
    else findConfidence cs

/-- Helper for the backtracking case of `\s*(.+)` on an all-whitespace tail:
the engine gives back whitespace until `.` can match, so the capture starts
at the LAST character that is not a line terminator. -/
def trailingCapture : List Char → List Char
  | [] => []
  | c :: rest =>
    if rest.any (fun d => !(lineTerm d)) then trailingCapture rest
    else if lineTerm c then []
    else c :: rest.takeWhile (fun d => !(lineTerm d))

/-- Models the regex fragment `\s*(.+)` applied at the start of `cs`
(with JS semantics: `\s` includes line terminators, `.` excludes them,
both quantifiers greedy with backtracking). Returns the capture group,
or `none` when `.+` cannot match anywhere after the skipped whitespace. -/
def wsDotPlus (cs : List Char) : Option (List Char) :=
  let rest := cs.dropWhile jsWs
  match rest with
  | r :: rs => some ((r :: rs).takeWhile (fun d => !(lineTerm d)))
  | [] =>
    if cs.any (fun d => !(lineTerm d)) then some (trailingCapture cs) else none

/-- Models `text.match(/Ask-Me-Back:\s*(.+)/i)`: first position where the
literal matches and `\s*(.+)` succeeds on the remainder. -/
def findAskBack : List Char → Option (List Char)
  | [] => none
  | c :: cs =>
    if ciStartsWith askMarker (c :: cs) then
      match wsDotPlus (List.drop askMarker.length (c :: cs)) with
      | some cap => some cap
      | none => findAskBack cs
    else findAskBack cs

/-- Models `text.replace(/pat:.*$/im, '')` for a literal pattern: remove from
the first case-insensitive occurrence of `pat` up to (excluding) the next
line terminator; no occurrence leaves the text unchanged. -/
def removeCiToEol (pat : List Char) : List Char → List Char
  | [] => []
  | c :: cs =>
    if ciStartsWith pat (c :: cs) then List.dropWhile (fun d => !(lineTerm d)) (c :: cs)
    else c :: removeCiToEol pat cs

structure ParsedResponse where
  content : List Char
  confidence : Option Confidence
  askBackQuestion : Option (List Char)
deriving DecidableEq, Repr

/-- Shallow embedding of `parseAIResponse` (see the quoted source above). -/
def parseAIResponse (text : List Char) : ParsedResponse :=
  let confidence := findConfidence text
  let askBack := findAskBack text
  let content1 := removeCiToEol confMarker text
  let content2 := removeCiToEol askMarker content1
  { content := trimChars content2
    confidence := confidence
    askBackQuestion := askBack.map trimChars }

/-! ## Transcript messages

```ts
interface Message {
  role: 'user' | 'assistant'
  content: string
  timestamp: Date
  confidence?: 'high' | 'medium' | 'low'
  askBackQuestion?: string
  type?: 'normal' | 'concept' | 'weakness'
  conceptData?: {...}
  weaknessData?: {...}
}
```
Wall-clock `timestamp` and the structured `conceptData`/`weaknessData`
payloads are not referenced by any verified property and are omitted. -/

inductive Role where
  | user
  | assistant
deriving DecidableEq, Repr

inductive MsgType where
  | normal
  | concept
  | weakness
deriving DecidableEq, Repr

structure Message where
  role : Role
  content : List Char
  confidence : Option Confidence := none
  askBackQuestion : Option (List Char) := none
  type : Option MsgType := none
deriving DecidableEq, Repr

/-- The user message built at the top of `handleSend`:
`{ role: 'user', content: input, timestamp: new Date() }`. -/
def userMsg (input : List Char) : Message :=
  { role := Role.user, content := input }

/-- An assistant message of type `'normal'` with the given content; with
empty content this is the placeholder appended when a stream begins. -/
def anMsg (c : List Char) : Message :=
  { role := Role.assistant, content := c, type := some MsgType.normal }

/-! ## Streaming reassembly (plain chat page, `handleSend` lines 1297-1342)

Each decoded chunk extends `accumulatedContent` and rewrites the last
message; after the loop the full accumulated text is parsed once. -/

/-- Models the per-chunk `setMessages` updater (lines 1318-1325): copy the
array and overwrite the last element's content with the accumulated text,
but only when that element is an assistant message of type `'normal'`. -/
def chunkUpdate : List Message → List Char → List Message
  | [], _ => []
  | [m], acc =>
    if m.role = Role.assistant ∧ m.type = some MsgType.normal then
      [{ m with content := acc }]
    else [m]
  | m :: m2 :: rest, acc => m :: chunkUpdate (m2 :: rest) acc

/-- Models the final `setMessages` updater (lines 1333-1342): overwrite the
last message's content, confidence and ask-back fields from
`parseAIResponse(accumulatedContent)` when it is an assistant message. -/
def finalizeUpdate : List Message → List Char → List Message
  | [], _ => []
  | [m], acc =>
    if m.role = Role.assistant then
      [{ m with
          content := (parseAIResponse acc).content
          confidence := (parseAIResponse acc).confidence
          askBackQuestion := (parseAIResponse acc).askBackQuestion }]
    else [m]
  | m :: m2 :: rest, acc => m :: finalizeUpdate (m2 :: rest) acc

/-- The `while (!done)` reader loop (lines 1311-1326): for each delivered
chunk, extend the accumulator and apply `chunkUpdate`. Returns the final
message list and the final accumulated content. -/
def streamLoop : List Message → List Char → List (List Char) → List Message × List Char
  | msgs, acc, [] => (msgs, acc)
  | msgs, acc, chunk :: rest => streamLoop (chunkUpdate msgs (acc ++ chunk)) (acc ++ chunk) rest

/-- The success path of the streaming `handleSend` (lines 1243-1358):
append the user message, append the empty assistant placeholder, run the
reader loop over the delivered chunks, then apply the final parse update. -/
def handleSendStreaming (prev : List Message) (input : List Char)
    (chunks : List (List Char)) : List Message :=
  let afterInit := (prev ++ [userMsg input]) ++ [anMsg []]
  let result := streamLoop afterInit [] chunks
  finalizeUpdate result.1 result.2

/-! ## Late responses after session rotation (chat-with-history page)

`handleSend` (lines 277-337) appends the response with
`setMessages(prev => [...prev, assistantMessage])` and performs no check
that the session active at dispatch time is still active; `handleNewChat`
(lines 197-224) rotates the session id and clears the transcript. -/

structure ChatState where
  sessionId : Nat
  messages : List Message
deriving DecidableEq, Repr

inductive ChatEvent where
  | dispatch (userText : List Char)
  | rotate
  | respond (aiText : List Char)
deriving DecidableEq, Repr

/-- The assistant message the response continuation appends
(lines 314-324): fields taken from `parseAIResponse(data.response)`. -/
def assistantFromResponse (text : List Char) : Message :=
  { role := Role.assistant
    content := (parseAIResponse text).content
    confidence := (parseAIResponse text).confidence
    askBackQuestion := (parseAIResponse text).askBackQuestion
    type := some MsgType.normal }

/-- One UI-thread step of the chat-with-history page, restricted to the
three events relevant to session rotation. `dispatch` is the synchronous
part of `handleSend` before `await fetch`; `rotate` is `handleNewChat`'s
rotation (fresh id, empty transcript); `respond` is the response
continuation, which appends unconditionally — the source has no guard
comparing a captured session id with the active one. -/
def chatStep : ChatState → ChatEvent → ChatState
  | s, ChatEvent.dispatch t => { s with messages := s.messages ++ [userMsg t] }
  | s, ChatEvent.rotate => { sessionId := s.sessionId + 1, messages := [] }
  | s, ChatEvent.respond t => { s with messages := s.messages ++ [assistantFromResponse t] }

def initialChatState : ChatState := { sessionId := 0, messages := [] }

/-! ## Non-streaming `handleSend` of the chat-with-history page (lines 277-337)

The completion call is external; its outcome is a parameter. A thrown fetch
error and an `error` field in the response body both land in the same
`catch` block. -/

inductive CompletionOutcome where
  | failed (errMsg : List Char)
  | responded (text : List Char)
deriving DecidableEq, Repr

/-- The synthetic assistant error message appended by every `catch` block:
"Sorry, I encountered an error: ERR. Please try again." -/
def errorContent (e : List Char) : List Char :=
  "Sorry, I encountered an error: ".toList ++ e ++ ". Please try again.".toList

/-- Transcript effect of the chat-with-history `handleSend` past its guard:
append the user message; then on success append the parsed assistant
message (lines 314-324), and on failure append the synthetic error notice
(lines 326-333). Nothing is ever removed. -/
def handleSendWithHistory (prev : List Message) (input : List Char)
    (outcome : CompletionOutcome) : List Message :=
  let afterUser := prev ++ [userMsg input]
  match outcome with
  | CompletionOutcome.responded text => afterUser ++ [assistantFromResponse text]
  | CompletionOutcome.failed e =>
      afterUser ++ [{ role := Role.assistant, content := errorContent e, type := some MsgType.normal }]

/-! ## Send guard and the single-outstanding-request invariant

`handleSend` (both pages, e.g. lines 1243-1247) starts with
`if (!input.trim() || loading) return`, and the submit button is rendered
with `disabled={loading || !input.trim()}` (line 1783). -/

structure UiState where
  input : List Char
  loading : Bool
  messages : List Message
deriving DecidableEq, Repr

/-- The synchronous prefix of `handleSend`: the guard returns with no state
change; otherwise the user message is appended, the input cleared and
`loading` set. -/
def sendDispatch (s : UiState) : UiState :=
  if trimChars s.input = [] ∨ s.loading = true then s
  else { input := [], loading := true, messages := s.messages ++ [userMsg s.input] }

/-- The submit control's `disabled` expression: `loading || !input.trim()`. -/
def submitDisabled (s : UiState) : Bool :=
  s.loading || (trimChars s.input).isEmpty

/-- Protocol abstraction for counting outstanding completion requests:
`loading` plus a ghost counter of open streams. -/
structure SendMachine where
  loading : Bool
  openStreams : Nat
deriving DecidableEq, Repr

inductive SendEvent where
  | attempt (inputBlank : Bool)
  | finish
deriving DecidableEq, Repr

/-- `attempt` is a press of the send control: it opens a stream only when
the input is non-blank and `loading` is false (the `handleSend` guard),
and then sets `loading` synchronously before any suspension point.
`finish` is the `finally` block of an open request: `setLoading(false)`. -/
def sendStep : SendMachine → SendEvent → SendMachine
  | s, SendEvent.attempt blank =>
      if blank || s.loading then s
      else { loading := true, openStreams := s.openStreams + 1 }
  | s, SendEvent.finish => { loading := false, openStreams := s.openStreams - 1 }

def sendInit : SendMachine := { loading := false, openStreams := 0 }

/-- Modelled from the spec: the `useResetWithUndo` hook is imported from
`@/hooks/useResetWithUndo`, whose source is not among the provided files —
only its call sites are (page.tsx lines 67-79 and 838-854). The state type
follows spec section 3 `ResettableState<T>`: the snapshot is retained
exactly while an undo window is open, so the open window is encoded by
`snapshotBeforeReset` being `some`. -/
structure ResettableState (T : Type) where
  current : T
  snapshotBeforeReset : Option T

namespace ResetWithUndo

/-- Modelled from the spec (section 4.2): `reset(newValue)` captures
`current` into the snapshot, sets `current = newValue`, opens the undo
window and invokes `onReset(newValue)`. The second component is the
argument passed to `onReset` (`none` means not invoked). -/
def reset {T : Type} (s : ResettableState T) (newValue : T) : ResettableState T × Option T :=
  ({ current := newValue, snapshotBeforeReset := some s.current }, some newValue)

/-- Modelled from the spec (section 4.2): `undo()` is valid only while the
window is open; it restores `current = snapshotBeforeReset`, closes the
window and invokes `onReset(snapshotBeforeReset)`; with the window closed
it does nothing. -/
def undo {T : Type} (s : ResettableState T) : ResettableState T × Option T :=
  match s.snapshotBeforeReset with
  | some snap => ({ current := snap, snapshotBeforeReset := none }, some snap)
  | none => (s, none)

/-- Modelled from the spec (section 4.2): `dismiss()` closes the window
without restoring, discarding the snapshot. -/
def dismiss {T : Type} (s : ResettableState T) : ResettableState T :=
  { s with snapshotBeforeReset := none }

end ResetWithUndo

/-! ## Title auto-generation one-shot (chat-with-history page)

```ts
useEffect(() => {
  if (messages.length >= 2 && !hasGeneratedTitle.current && user) {
    hasGeneratedTitle.current = true
    autoGenerateTitle()
  }
}, [messages])
```
`autoGenerateTitle` (lines 171-195) returns without calling `generateTitle`
when the transcript has no user-role message. The user is assumed signed in
(`user` truthy) and the store configured; a session rotation re-enters with
the flag `false`. -/

/-- One messages-array update: given the one-shot flag and the new message
list, returns (was `generateTitle` invoked, new flag). The flag is set the
moment the effect body runs, before `autoGenerateTitle` decides whether a
first user message exists. -/
def titleStepMsgs (flag : Bool) (msgs : List Message) : Bool × Bool :=
  if 2 ≤ msgs.length ∧ flag = false then
    (msgs.any (fun m => decide (m.role = Role.user)), true)
  else (false, flag)

/-- Number of `generateTitle` invocations over a sequence of messages-array
updates within one session lifetime, starting from the given flag. -/
def titleInvocations : Bool → List (List Message) → Nat
  | _, [] => 0
  | flag, msgs :: rest =>
    let st := titleStepMsgs flag msgs
    (if st.1 then 1 else 0) + titleInvocations st.2 rest

/-- Indices (0-based) of the updates at which the effect body runs
(i.e. the one-shot flag transitions). -/
def titleFireIdx : Bool → List (List Message) → List Nat
  | _, [] => []
  | flag, msgs :: rest =>
    let st := titleStepMsgs flag msgs
    if 2 ≤ msgs.length ∧ flag = false then 0 :: (titleFireIdx st.2 rest).map (· + 1)
    else (titleFireIdx st.2 rest).map (· + 1)

/-! ## HTTP route handlers

Every route in the source opens with the same gate:
```ts
const supabase = createServerSupabaseClient()
if (supabase) {
  const { data: { session } } = await supabase.auth.getSession()
  if (!session) {
    return NextResponse.json({ error: 'Unauthorized' }, { status: 401 })
  }
}
```
`configured` models `createServerSupabaseClient()` returning a client;
`hasSession` models `auth.getSession()` finding a session. The external
completion calls are `Except` parameters: an exception propagates to the
route's catch-all, which answers 500 with the error message. -/

structure AuthContext where
  configured : Bool
  hasSession : Bool
deriving DecidableEq, Repr

inductive Response (α : Type) where
  | success (payload : α)
  | failure (status : Nat) (error : List Char)
deriving DecidableEq, Repr

/-- HTTP status of a response; `NextResponse.json` without an explicit
status answers 200. -/
def Response.status {α : Type} : Response α → Nat
  | Response.success _ => 200
  | Response.failure s _ => s

def unauthorizedBody : List Char := "Unauthorized".toList

/-- JS truthiness test for a string body field: falsy when missing
(or not a string) or the empty string. -/
def falsyField : Option (List Char) → Bool
  | none => true
  | some s => s.isEmpty

/-- Body of POST `/api/exam-planner`. `examDay` is the calendar day number
(local midnight) denoted by `new Date(examDate)` after
`setHours(0,0,0,0)`; with both dates normalized to midnight,
`Math.ceil((exam - today) / 86400000)` is exactly their day difference. -/
structure ExamPlannerBody where
  examName : Option (List Char)
  examDate : Option (List Char)
  subjects : Option (List Char)
  dailyHours : Option (List Char)
  examDay : Int
deriving DecidableEq, Repr

/-- POST `/api/exam-planner` (route.ts lines 5-78): auth gate, required
fields, then `if (daysUntilExam < 1)` answers 400, else the generated plan
is returned as `{ plan }`. -/
def examPlannerPOST (auth : AuthContext) (body : ExamPlannerBody) (todayDay : Int)
    (completion : Except (List Char) (List Char)) : Response (List Char) :=
  if auth.configured && !auth.hasSession then
    Response.failure 401 unauthorizedBody
  else if falsyField body.examName || falsyField body.examDate ||
      falsyField body.subjects || falsyField body.dailyHours then
    Response.failure 400 "Missing required fields".toList
  else
    let daysUntilExam := body.examDay - todayDay
    if daysUntilExam < 1 then
      Response.failure 400 "Exam date must be in the future".toList
    else
      match completion with
      | Except.ok plan => Response.success plan
      | Except.error e => Response.failure 500 e

/-- Body of POST `/api/career`; `goals` is optional and unvalidated. -/
structure CareerBody where
  currentEducation : Option (List Char)
  interests : Option (List Char)
  strengths : Option (List Char)
  goals : Option (List Char)
deriving DecidableEq, Repr

/-- POST `/api/career`: auth gate, three required fields, then the
generated roadmap is returned as `{ roadmap }`. -/
def careerPOST (auth : AuthContext) (body : CareerBody)
    (completion : Except (List Char) (List Char)) : Response (List Char) :=
  if auth.configured && !auth.hasSession then
    Response.failure 401 unauthorizedBody
  else if falsyField body.currentEducation || falsyField body.interests ||
      falsyField body.strengths then
    Response.failure 400 "Missing required fields".toList
  else
    match completion with
    | Except.ok roadmap => Response.success roadmap
    | Except.error e => Response.failure 500 e

/-- The structured payload of POST `/api/chat/2min-concept`; the source
field `example` is renamed `exampleText` (`example` is a Lean keyword). -/
structure ConceptPayload where
  concept : List Char
  exampleText : List Char
  takeaway : List Char
deriving DecidableEq, Repr

/-- POST `/api/chat/2min-concept` (route.ts lines 5-81): auth gate, then
`if (!topic || typeof topic !== 'string')` answers 400 (`none` models a
missing or non-string topic), then the structured completion. -/
def twoMinConceptPOST (auth : AuthContext) (topic : Option (List Char))
    (completion : Except (List Char) ConceptPayload) : Response ConceptPayload :=
  if auth.configured && !auth.hasSession then
    Response.failure 401 unauthorizedBody
  else if falsyField topic then
    Response.failure 400 "Topic is required".toList
  else
    match completion with
    | Except.ok payload => Response.success payload
    | Except.error e => Response.failure 500 e

/-- POST `/api/chat` (page.tsx lines 1825-1857): auth gate, then
`if (!messages || !Array.isArray(messages))` answers 400 (`none` models a
missing or non-array field), then the streamed completion body. -/
def chatPOST (auth : AuthContext) (messages : Option (List (Role × List Char)))
    (stream : Except (List Char) (List (List Char))) : Response (List (List Char)) :=
  if auth.configured && !auth.hasSession then
    Response.failure 401 unauthorizedBody
  else
    match messages with
    | none => Response.failure 400 "Invalid messages format".toList
    | some _ =>
      match stream with
      | Except.ok chunks => Response.success chunks
      | Except.error e => Response.failure 500 e

/-! ## Helper lemmas -/

/-- `chunkUpdate` on a list with an explicit last element rewrites exactly
that element, guarded by the assistant-normal check. -/
theorem chunkUpdate_last : ∀ (front : List Message) (lst : Message) (acc : List Char),
    chunkUpdate (front ++ [lst]) acc
      = front ++ [if lst.role = Role.assistant ∧ lst.type = some MsgType.normal
                  then { lst with content := acc } else lst]
  | [], lst, acc => by
      by_cases h : lst.role = Role.assistant ∧ lst.type = some MsgType.normal <;>
        simp [chunkUpdate, h]
  | [m], lst, acc => by
      by_cases h : lst.role = Role.assistant ∧ lst.type = some MsgType.normal <;>
        simp [chunkUpdate, h]
  | m :: m2 :: fr, lst, acc => by
      have ih := chunkUpdate_last (m2 :: fr) lst acc
      simp only [List.cons_append, List.append_eq, chunkUpdate] at ih ⊢
      rw [ih]

/-- `finalizeUpdate` on a list with an explicit last element rewrites
exactly that element, guarded by the assistant check. -/
theorem finalizeUpdate_last : ∀ (front : List Message) (lst : Message) (acc : List Char),
    finalizeUpdate (front ++ [lst]) acc
      = front ++ [if lst.role = Role.assistant
                  then { lst with
                          content := (parseAIResponse acc).content
                          confidence := (parseAIResponse acc).confidence
                          askBackQuestion := (parseAIResponse acc).askBackQuestion }
                  else lst]
  | [], lst, acc => by
      by_cases h : lst.role = Role.assistant <;> simp [finalizeUpdate, h]
  | [m], lst, acc => by
      by_cases h : lst.role = Role.assistant <;> simp [finalizeUpdate, h]
  | m :: m2 :: fr, lst, acc => by
      have ih := finalizeUpdate_last (m2 :: fr) lst acc
      simp only [List.cons_append, List.append_eq, finalizeUpdate] at ih ⊢
      rw [ih]

theorem chunkUpdate_anMsg (front : List Message) (c acc : List Char) :
    chunkUpdate (front ++ [anMsg c]) acc = front ++ [anMsg acc] := by
  rw [chunkUpdate_last]
  simp [anMsg]

/-- Content of the trailing assistant message after the reader loop:
untouched placeholder when no chunk arrived, else the accumulated text. -/
def lastStreamContent (c acc : List Char) (chunks : List (List Char)) : List Char :=
  match chunks with
  | [] => c
  | _ :: _ => acc ++ chunks.flatten

/-- Running the reader loop with a trailing assistant-normal message:
the accumulator collects every chunk in delivery order and the trailing
message carries the accumulated text. -/
theorem streamLoop_run : ∀ (chunks : List (List Char)) (front : List Message) (c acc : List Char),
    streamLoop (front ++ [anMsg c]) acc chunks
      = (front ++ [anMsg (lastStreamContent c acc chunks)], acc ++ chunks.flatten)
  | [], front, c, acc => by simp [streamLoop, lastStreamContent]
  | chunk :: rest, front, c, acc => by
      have ih := streamLoop_run rest front (acc ++ chunk) (acc ++ chunk)
      simp only [streamLoop, chunkUpdate_anMsg]
      rw [ih]
      cases rest <;> simp [lastStreamContent]

theorem findConfidence_eq_none : ∀ {cs : List Char},
    containsCi confMarker cs = false → findConfidence cs = none
  | [], _ => rfl
  | c :: rest, h => by
      rw [containsCi, Bool.or_eq_false_iff] at h
      simp only [findConfidence, h.1, Bool.false_eq_true, if_false]
      exact findConfidence_eq_none h.2

theorem findAskBack_eq_none : ∀ {cs : List Char},
    containsCi askMarker cs = false → findAskBack cs = none
  | [], _ => rfl
  | c :: rest, h => by
      rw [containsCi, Bool.or_eq_false_iff] at h
      simp only [findAskBack, h.1, Bool.false_eq_true, if_false]
      exact findAskBack_eq_none h.2

theorem removeCiToEol_eq_self {pat : List Char} : ∀ {cs : List Char},
    containsCi pat cs = false → removeCiToEol pat cs = cs
  | [], _ => rfl
  | c :: rest, h => by
      rw [containsCi, Bool.or_eq_false_iff] at h
      simp only [removeCiToEol, h.1, Bool.false_eq_true, if_false]
      rw [removeCiToEol_eq_self h.2]

/-! ## Claim theorems -/

/-- C1: in the streaming chat handler, for every sequence of delivered
chunks, the accumulated string equals the chunk concatenation in delivery
order, and the final assistant message's content, confidence and ask-back
fields come from `parseAIResponse` applied to the fully concatenated text
only — the result depends on the chunks solely through their
concatenation. -/
theorem stream_reassembly (prev : List Message) (input : List Char)
    (chunks : List (List Char)) :
    (streamLoop ((prev ++ [userMsg input]) ++ [anMsg []]) [] chunks).2 = chunks.flatten
    ∧ handleSendStreaming prev input chunks
      = (prev ++ [userMsg input]) ++
          [{ role := Role.assistant
             content := (parseAIResponse chunks.flatten).content
             confidence := (parseAIResponse chunks.flatten).confidence
             askBackQuestion := (parseAIResponse chunks.flatten).askBackQuestion
             type := some MsgType.normal }] := by
  have h := streamLoop_run chunks (prev ++ [userMsg input]) [] []
  constructor
  · rw [h]
    exact List.nil_append _
  · show finalizeUpdate (streamLoop ((prev ++ [userMsg input]) ++ [anMsg []]) [] chunks).1
        (streamLoop ((prev ++ [userMsg input]) ++ [anMsg []]) [] chunks).2
      = _
    rw [h]
    rw [finalizeUpdate_last]
    simp [anMsg]

/-- C2: the chat-with-history append path has no session guard — after a
dispatch in session 0, a rotation (New Chat) to session 1, and the late
arrival of the response, the response IS appended to the rotated session's
previously empty transcript, contradicting the claimed discard. -/
theorem late_response_appended_after_rotation :
    (chatStep (chatStep (chatStep initialChatState (ChatEvent.dispatch "hi".toList))
        ChatEvent.rotate) (ChatEvent.respond "ok".toList)).sessionId
      = initialChatState.sessionId + 1
    ∧ (chatStep (chatStep (chatStep initialChatState (ChatEvent.dispatch "hi".toList))
        ChatEvent.rotate) (ChatEvent.respond "ok".toList)).messages
      = [assistantFromResponse "ok".toList] :=
  ⟨rfl, rfl⟩

/-- C3: POST `/api/exam-planner` with all four fields present and an
authorized (or unconfigured-auth) context answers 200 with the plan when
the exam day is strictly after today, and 400 with "Exam date must be in
the future" otherwise. -/
theorem exam_planner_future_date (cfg ses : Bool) (hauth : cfg = true → ses = true)
    (en ed su dh : List Char) (hen : en ≠ []) (hed : ed ≠ []) (hsu : su ≠ [])
    (hdh : dh ≠ []) (exDay today : Int) (plan : List Char) :
    (today < exDay →
      examPlannerPOST ⟨cfg, ses⟩ ⟨some en, some ed, some su, some dh, exDay⟩ today
          (Except.ok plan)
        = Response.success plan
      ∧ (examPlannerPOST ⟨cfg, ses⟩ ⟨some en, some ed, some su, some dh, exDay⟩ today
          (Except.ok plan)).status = 200)
    ∧ (exDay ≤ today →
      examPlannerPOST ⟨cfg, ses⟩ ⟨some en, some ed, some su, some dh, exDay⟩ today
          (Except.ok plan)
        = Response.failure 400 "Exam date must be in the future".toList
      ∧ (examPlannerPOST ⟨cfg, ses⟩ ⟨some en, some ed, some su, some dh, exDay⟩ today
          (Except.ok plan)).status = 400) := by
  have hg : (cfg && !ses) = false := by
    cases cfg
    · rfl
    · rw [hauth rfl]; rfl
  have hno : ∀ s : List Char, s ≠ [] → falsyField (some s) = false := by
    intro s hs
    cases s
    · exact absurd rfl hs
    · rfl
  constructor
  · intro hd
    have hok : ¬ (exDay - today < 1) := by omega
    simp [examPlannerPOST, hg, hno en hen, hno ed hed, hno su hsu, hno dh hdh, hok,
      Response.status]
  · intro hd
    have hpast : exDay - today < 1 := by omega
    simp [examPlannerPOST, hg, hno en hen, hno ed hed, hno su hsu, hno dh hdh, hpast,
      Response.status]

theorem exam_planner_future_date_witness :
    examPlannerPOST ⟨false, false⟩
        ⟨some "JEE".toList, some "d".toList, some "Math".toList, some "3".toList, 5⟩ 4
        (Except.ok "plan".toList)
      = Response.success "plan".toList
    ∧ examPlannerPOST ⟨false, false⟩
        ⟨some "JEE".toList, some "d".toList, some "Math".toList, some "3".toList, 3⟩ 4
        (Except.ok "plan".toList)
      = Response.failure 400 "Exam date must be in the future".toList :=
  ⟨((exam_planner_future_date false false (fun h => h) "JEE".toList "d".toList
      "Math".toList "3".toList (by decide) (by decide) (by decide) (by decide) 5 4
      "plan".toList).1 (by decide)).1,
   ((exam_planner_future_date false false (fun h => h) "JEE".toList "d".toList
      "Math".toList "3".toList (by decide) (by decide) (by decide) (by decide) 3 4
      "plan".toList).2 (by decide)).1⟩

/-- C4: for the undo-capable reset controller (modelled from the spec, see
`ResettableState`): `reset(B)` then `undo()` restores the prior state `A`
and invokes `onReset(A)`; `reset(B)` then `dismiss()` leaves the state at
`B` with the window closed, after which `undo()` is a no-op, so `A` is
unrecoverable. -/
theorem reset_undo_dismiss (T : Type) (s : ResettableState T) (B : T) :
    ResetWithUndo.undo (ResetWithUndo.reset s B).1
      = ({ current := s.current, snapshotBeforeReset := none }, some s.current)
    ∧ (ResetWithUndo.reset s B).2 = some B
    ∧ ResetWithUndo.dismiss (ResetWithUndo.reset s B).1
      = { current := B, snapshotBeforeReset := none }
    ∧ ResetWithUndo.undo (ResetWithUndo.dismiss (ResetWithUndo.reset s B).1)
      = ({ current := B, snapshotBeforeReset := none }, none) :=
  ⟨rfl, rfl, rfl, rfl⟩

theorem titleStepMsgs_pos {msgs : List Message} (h2 : 2 ≤ msgs.length) :
    titleStepMsgs false msgs = (msgs.any (fun m => decide (m.role = Role.user)), true) := by
  simp [titleStepMsgs, h2]

theorem titleStepMsgs_neg {msgs : List Message} (h2 : ¬ 2 ≤ msgs.length) :
    titleStepMsgs false msgs = (false, false) := by
  simp [titleStepMsgs, h2]

theorem titleStepMsgs_flag (msgs : List Message) :
    titleStepMsgs true msgs = (false, true) := by
  simp [titleStepMsgs]

theorem titleFireIdx_flag_set : ∀ (tr : List (List Message)), titleFireIdx true tr = []
  | [] => rfl
  | msgs :: rest => by
      simp only [titleFireIdx, titleStepMsgs_flag]
      rw [if_neg (by simp)]
      simpa using titleFireIdx_flag_set rest

theorem titleInvocations_flag_set : ∀ (tr : List (List Message)),
    titleInvocations true tr = 0
  | [] => rfl
  | msgs :: rest => by
      simp only [titleInvocations, titleStepMsgs_flag]
      simpa using titleInvocations_flag_set rest

/-- C5 counterexample: a session whose first two messages-array updates
contain only assistant messages (reachable by pressing "Explain in 2
Minutes" twice with empty input, which appends the 'Please type a topic'
notice each time). The transcript reaches length 2 with the one-shot flag
unset, yet `generateTitle` is invoked zero times — not exactly once. -/
theorem title_two_assistant_messages_no_invocation :
    titleInvocations false [[anMsg "a".toList], [anMsg "a".toList, anMsg "b".toList]] = 0
    ∧ 2 ≤ ([anMsg "a".toList, anMsg "b".toList] : List Message).length := by
  constructor
  · decide
  · decide

/-- C5 (amended): within one session lifetime (flag starts unset), the
title effect body runs exactly at the first messages update whose length
reaches 2, and `generateTitle` is invoked at that moment iff that
transcript contains a user-role message; in particular it is invoked at
most once, and no later update invokes it again until a rotation clears
the flag. -/
theorem title_one_shot (trace : List (List Message)) :
    titleFireIdx false trace
      = (List.findIdx? (fun msgs => decide (2 ≤ msgs.length)) trace).toList
    ∧ titleInvocations false trace
        = (match List.find? (fun msgs => decide (2 ≤ msgs.length)) trace with
           | none => 0
           | some msgs => if msgs.any (fun m => decide (m.role = Role.user)) then 1 else 0)
    ∧ titleInvocations false trace ≤ 1 := by
  induction trace with
  | nil => exact ⟨rfl, rfl, Nat.zero_le 1⟩
  | cons msgs rest ih =>
    by_cases h2 : 2 ≤ msgs.length
    · have hfire : titleFireIdx false (msgs :: rest)
          = 0 :: (titleFireIdx true rest).map (· + 1) := by
        simp only [titleFireIdx, titleStepMsgs_pos h2]
        simp [h2]
      have hinv : titleInvocations false (msgs :: rest)
          = (if (msgs.any fun m => decide (m.role = Role.user)) = true then 1 else 0)
            + titleInvocations true rest := by
        simp only [titleInvocations, titleStepMsgs_pos h2]
      refine ⟨?_, ?_, ?_⟩
      · rw [hfire, titleFireIdx_flag_set rest]
        simp [List.findIdx?_cons, h2]
      · rw [hinv, titleInvocations_flag_set rest,
          List.find?_cons_of_pos _ (by simpa using h2)]
        cases hany : (msgs.any fun m => decide (m.role = Role.user)) <;> simp [hany]
      · rw [hinv, titleInvocations_flag_set rest]
        cases hany : (msgs.any fun m => decide (m.role = Role.user)) <;> simp [hany]
    · have hfire : titleFireIdx false (msgs :: rest)
          = (titleFireIdx false rest).map (· + 1) := by
        simp only [titleFireIdx, titleStepMsgs_neg h2]
        simp [h2]
      have hinv : titleInvocations false (msgs :: rest)
          = titleInvocations false rest := by
        simp only [titleInvocations, titleStepMsgs_neg h2]
        simp
      refine ⟨?_, ?_, ?_⟩
      · rw [hfire, ih.1]
        cases hfi : List.findIdx? (fun msgs => decide (2 ≤ msgs.length)) rest <;>
          simp [List.findIdx?_cons, h2, hfi]
      · rw [hinv, List.find?_cons_of_neg _ (by simpa using h2)]
        exact ih.2.1
      · rw [hinv]
        exact ih.2.2

/-- C6: when the completion request fails (network error, provider error,
or an `error` field in the response body), the handler appends a synthetic
assistant message whose content embeds the error text, and the transcript
is not rolled back — the just-appended user message is still there, only
the assistant reply becomes the error notice. -/
theorem error_append_no_rollback (prev : List Message) (input e : List Char) :
    handleSendWithHistory prev input (CompletionOutcome.failed e)
      = prev ++ [userMsg input,
          { role := Role.assistant, content := errorContent e, type := some MsgType.normal }]
    ∧ (handleSendWithHistory prev input (CompletionOutcome.failed e)).take (prev.length + 1)
      = prev ++ [userMsg input]
    ∧ errorContent e
      = "Sorry, I encountered an error: ".toList ++ e ++ ". Please try again.".toList := by
  refine ⟨by simp [handleSendWithHistory], ?_, rfl⟩
  show ((prev ++ [userMsg input]) ++
      [({ role := Role.assistant, content := errorContent e,
          type := some MsgType.normal } : Message)]).take (prev.length + 1)
    = prev ++ [userMsg input]
  rw [show prev.length + 1 = (prev ++ [userMsg input]).length from by simp]
  exact List.take_left _ _

/-- C7: `parseAIResponse` is a total function on strings; its content is
always the input with the first (case-insensitive) `Confidence:` and
`Ask-Me-Back:` marker segments removed up to end-of-line and the result
trimmed; a marker that does not match leaves the corresponding field
absent rather than raising an error, and with neither marker present the
input is returned trimmed with both fields absent. -/
theorem parseAIResponse_tolerant (text : List Char) :
    (parseAIResponse text).content
      = trimChars (removeCiToEol askMarker (removeCiToEol confMarker text))
    ∧ (containsCi confMarker text = false → (parseAIResponse text).confidence = none)
    ∧ (containsCi askMarker text = false → (parseAIResponse text).askBackQuestion = none)
    ∧ (containsCi confMarker text = false → containsCi askMarker text = false →
        parseAIResponse text
          = { content := trimChars text, confidence := none, askBackQuestion := none }) := by
  refine ⟨rfl, ?_, ?_, ?_⟩
  · intro h
    simp [parseAIResponse, findConfidence_eq_none h]
  · intro h
    simp [parseAIResponse, findAskBack_eq_none h]
  · intro h1 h2
    simp [parseAIResponse, findConfidence_eq_none h1, findAskBack_eq_none h2,
      removeCiToEol_eq_self h1, removeCiToEol_eq_self h2]

theorem parseAIResponse_tolerant_witness :
    (parseAIResponse "Hello there".toList).confidence = none
    ∧ (parseAIResponse "Hello there".toList).askBackQuestion = none
    ∧ parseAIResponse "Hello there".toList
        = { content := trimChars "Hello there".toList
            confidence := none
            askBackQuestion := none } :=
  ⟨(parseAIResponse_tolerant "Hello there".toList).2.1 (by decide),
   (parseAIResponse_tolerant "Hello there".toList).2.2.1 (by decide),
   (parseAIResponse_tolerant "Hello there".toList).2.2.2 (by decide) (by decide)⟩

/-- Invariant carried by the send protocol: never more than one stream is
open, and none is open when `loading` is false. -/
def SendInv (s : SendMachine) : Prop :=
  s.openStreams ≤ 1 ∧ (s.loading = false → s.openStreams = 0)

theorem sendStep_inv {s : SendMachine} (h : SendInv s) : ∀ e, SendInv (sendStep s e)
  | SendEvent.attempt blank => by
      by_cases hc : (blank || s.loading) = true
      · have hstep : sendStep s (SendEvent.attempt blank) = s := by
          simp [sendStep, hc]
        rw [hstep]
        exact h
      · have hl : s.loading = false := by
          cases hld : s.loading
          · rfl
          · exact absurd (by simp [hld]) hc
        have h0 := h.2 hl
        have hstep : sendStep s (SendEvent.attempt blank)
            = { loading := true, openStreams := s.openStreams + 1 } := by
          simp [sendStep, hc]
        rw [hstep]
        exact ⟨by show s.openStreams + 1 ≤ 1; omega,
               fun hf => absurd hf (by simp)⟩
  | SendEvent.finish => by
      have h1 := h.1
      exact ⟨show s.openStreams - 1 ≤ 1 by omega,
             fun _ => show s.openStreams - 1 = 0 by omega⟩

theorem foldl_sendStep_inv : ∀ (events : List SendEvent) (s : SendMachine),
    SendInv s → SendInv (events.foldl sendStep s)
  | [], _, h => h
  | e :: es, _, h => foldl_sendStep_inv es _ (sendStep_inv h e)

/-- C8: while a request is outstanding (`loading` true) or the input is
blank, `handleSend` returns without any state change; the submit control
is disabled whenever `loading` is true; and along every event sequence of
the send protocol starting idle, at most one completion stream is ever
open. -/
theorem single_outstanding_request :
    (∀ s : UiState, s.loading = true → sendDispatch s = s)
    ∧ (∀ s : UiState, trimChars s.input = [] → sendDispatch s = s)
    ∧ (∀ s : UiState, s.loading = true → submitDisabled s = true)
    ∧ (∀ events : List SendEvent, (events.foldl sendStep sendInit).openStreams ≤ 1) := by
  refine ⟨?_, ?_, ?_, ?_⟩
  · intro s h
    simp [sendDispatch, h]
  · intro s h
    simp [sendDispatch, h]
  · intro s h
    simp [submitDisabled, h]
  · intro events
    exact (foldl_sendStep_inv events sendInit ⟨Nat.zero_le 1, fun _ => rfl⟩).1

theorem single_outstanding_request_witness :
    sendDispatch { input := "hi".toList, loading := true, messages := [] }
      = { input := "hi".toList, loading := true, messages := [] }
    ∧ submitDisabled { input := "hi".toList, loading := true, messages := [] } = true :=
  ⟨single_outstanding_request.1 _ rfl,
   single_outstanding_request.2.2.1 _ rfl⟩

/-- C9: every HTTP route handler in the source (`/api/chat`,
`/api/chat/2min-concept`, `/api/career`, `/api/exam-planner`) checks
authentication only when the Supabase client is configured: configured
with no session answers 401 Unauthorized for every body; unconfigured, the
result is independent of any session and is never a 401 — the route
proceeds unauthenticated. -/
theorem routes_auth_gate :
    (∀ (body : ExamPlannerBody) (today : Int) (comp : Except (List Char) (List Char)),
        examPlannerPOST ⟨true, false⟩ body today comp = Response.failure 401 unauthorizedBody)
    ∧ (∀ (ses : Bool) (body : ExamPlannerBody) (today : Int)
          (comp : Except (List Char) (List Char)),
        examPlannerPOST ⟨false, ses⟩ body today comp
          = examPlannerPOST ⟨false, true⟩ body today comp
        ∧ ((examPlannerPOST ⟨false, ses⟩ body today comp).status == 401) = false)
    ∧ (∀ (body : CareerBody) (comp : Except (List Char) (List Char)),
        careerPOST ⟨true, false⟩ body comp = Response.failure 401 unauthorizedBody)
    ∧ (∀ (ses : Bool) (body : CareerBody) (comp : Except (List Char) (List Char)),
        careerPOST ⟨false, ses⟩ body comp = careerPOST ⟨false, true⟩ body comp
        ∧ ((careerPOST ⟨false, ses⟩ body comp).status == 401) = false)
    ∧ (∀ (topic : Option (List Char)) (comp : Except (List Char) ConceptPayload),
        twoMinConceptPOST ⟨true, false⟩ topic comp = Response.failure 401 unauthorizedBody)
    ∧ (∀ (ses : Bool) (topic : Option (List Char)) (comp : Except (List Char) ConceptPayload),
        twoMinConceptPOST ⟨false, ses⟩ topic comp = twoMinConceptPOST ⟨false, true⟩ topic comp
        ∧ ((twoMinConceptPOST ⟨false, ses⟩ topic comp).status == 401) = false)
    ∧ (∀ (messages : Option (List (Role × List Char)))
          (stream : Except (List Char) (List (List Char))),
        chatPOST ⟨true, false⟩ messages stream = Response.failure 401 unauthorizedBody)
    ∧ (∀ (ses : Bool) (messages : Option (List (Role × List Char)))
          (stream : Except (List Char) (List (List Char))),
        chatPOST ⟨false, ses⟩ messages stream = chatPOST ⟨false, true⟩ messages stream
        ∧ ((chatPOST ⟨false, ses⟩ messages stream).status == 401) = false) := by
  refine ⟨?_, ?_, ?_, ?_, ?_, ?_, ?_, ?_⟩
  · intro body today comp
    rfl
  · intro ses body today comp
    refine ⟨by simp [examPlannerPOST], ?_⟩
    simp only [examPlannerPOST, Bool.false_and, Bool.false_eq_true, if_false]
    split
    · rfl
    · split
      · rfl
      · split <;> rfl
  · intro body comp
    rfl
  · intro ses body comp
    refine ⟨by simp [careerPOST], ?_⟩
    simp only [careerPOST, Bool.false_and, Bool.false_eq_true, if_false]
    split
    · rfl
    · split <;> rfl
  · intro topic comp
    rfl
  · intro ses topic comp
    refine ⟨by simp [twoMinConceptPOST], ?_⟩
    simp only [twoMinConceptPOST, Bool.false_and, Bool.false_eq_true, if_false]
    split
    · rfl
    · split <;> rfl
  · intro messages stream
    rfl
  · intro ses messages stream
    refine ⟨by simp [chatPOST], ?_⟩
    simp only [chatPOST, Bool.false_and, Bool.false_eq_true, if_false]
    split
    · rfl
    · split <;> rfl

/-- C10: each streaming chunk update changes at most the last element of
the messages array — the length is preserved, every earlier index is left
unchanged — and the last element is rewritten (with the accumulated
content) exactly when it is an assistant message of type `'normal'`;
otherwise the whole array is unchanged. -/
theorem chunk_update_frame (msgs : List Message) (acc : List Char) :
    (chunkUpdate msgs acc).length = msgs.length
    ∧ (∀ i : Nat, i + 1 < msgs.length → (chunkUpdate msgs acc).get? i = msgs.get? i)
    ∧ (∀ lst : Message, msgs.getLast? = some lst →
        (lst.role = Role.assistant ∧ lst.type = some MsgType.normal →
          chunkUpdate msgs acc = msgs.dropLast ++ [{ lst with content := acc }])
        ∧ (¬ (lst.role = Role.assistant ∧ lst.type = some MsgType.normal) →
          chunkUpdate msgs acc = msgs)) := by
  rcases List.eq_nil_or_concat msgs with h | ⟨front, last, h⟩
  · subst h
    refine ⟨rfl, ?_, ?_⟩
    · intro i hi
      simp at hi
    · intro lst hl
      simp at hl
  · subst h
    simp only [List.concat_eq_append]
    rw [chunkUpdate_last]
    refine ⟨by simp, ?_, ?_⟩
    · intro i hi
      have hi' : i < front.length := by
        simpa using hi
      rw [List.get?_append hi', List.get?_append hi']
    · intro lst hl
      rw [List.getLast?_concat] at hl
      injection hl with hl
      subst hl
      constructor
      · intro hcond
        rw [if_pos hcond, List.dropLast_concat]
      · intro hcond
        rw [if_neg hcond]

theorem chunk_update_frame_witness :
    (chunkUpdate [userMsg "q".toList, anMsg "a".toList] "az".toList).get? 0
        = some (userMsg "q".toList)
    ∧ chunkUpdate [userMsg "q".toList, anMsg "a".toList] "az".toList
        = ([userMsg "q".toList, anMsg "a".toList] : List Message).dropLast
            ++ [{ anMsg "a".toList with content := "az".toList }] :=
  ⟨(chunk_update_frame [userMsg "q".toList, anMsg "a".toList] "az".toList).2.1 0 (by decide),
   ((chunk_update_frame [userMsg "q".toList, anMsg "a".toList] "az".toList).2.2
      (anMsg "a".toList) (by decide)).1 (by decide)⟩

end MantraAI
